import Mathlib

/-!
# Verification of the wpb-bot matching-and-orchestration engine

Shallow embedding of `src/matching.py` and `src/plan_bot.py`:

* text/regex helpers model the Python `re` patterns used by the rule
  strategies (`re.match`/`re.search` with `IGNORECASE | MULTILINE`);
* `match_verbatim`, `request_plan_list`, `request_state_of_race`,
  `match_display_title` embed the rule strategies of `RuleStrategy`;
* `gensim_similarity` embeds `Strategy._gensim_similarity`, with the
  similarity scores produced by the external gensim index given as an
  input list of rationals (floats are modelled as `ℚ`);
* `process_flags`, `get_trigger_line`, `create_db_record` and
  `process_post` embed the orchestration layer of `plan_bot.py`; the
  externally visible effects (Firestore writes, reply calls, strategy
  invocation) are recorded as an event trace, and propagated Python
  exceptions (including the `SystemExit` argparse can raise during flag
  parsing) as `Except.error` / a raised outcome.

External collaborators that are not part of this repository's sources
(the gensim preprocessing pipeline, the praw reply channel, the LLM
enrichment call from `llm.py`) are modelled as explicit parameters, as
the spec specifies them only at their interface.
-/

/-! ## Characters and case-insensitive pattern matching -/

/-- Python `\w` for the ASCII range: letters, digits and underscore. -/
def isWordChar (c : Char) : Bool := c.isAlphanum || c == '_'

/-- Case-insensitive prefix stripping: `stripPrefixCI pat l` returns the
remainder of `l` after a case-insensitive match of `pat` (given in
lowercase), or `none`.  Models matching a literal with `re.IGNORECASE`. -/
def stripPrefixCI : List Char → List Char → Option (List Char)
  | [], l => some l
  | _ :: _, [] => none
  | p :: ps, c :: cs => if c.toLower == p then stripPrefixCI ps cs else none

/-- `\W*$` under `re.MULTILINE`: from here, a run of non-word characters
reaches the end of the string or a position just before a newline. -/
def tailOK : List Char → Bool
  | [] => true
  | c :: cs => if c == '\n' then true else if !isWordChar c then tailOK cs else false

/-- Match a literal pattern here, then hand the remainder to `k`. -/
def afterPat (pat : List Char) (k : List Char → Bool) (l : List Char) : Bool :=
  match stripPrefixCI pat l with
  | some r => k r
  | none => false

/-- `re.search` semantics: does `p` hold at some position of the text
(including the position at the very end)? -/
def searchAny (p : List Char → Bool) : List Char → Bool
  | [] => p []
  | l@(_ :: cs) => p l || searchAny p cs

/-- Does `p` hold at every position of the text? -/
def allPositionsOk (p : List Char → Bool) : List Char → Bool
  | [] => p []
  | l@(_ :: cs) => p l && allPositionsOk p cs

/-- Case-insensitive substring search (`re.search` of a plain literal
with `re.IGNORECASE`); `needle` is given in lowercase. -/
def containsCI (needle : String) (hay : String) : Bool :=
  searchAny (fun l => (stripPrefixCI needle.toList l).isSome) hay.toList

/-- `\s+` followed by `k`: at least one whitespace character, then `k` on
the remainder after the maximal whitespace run.  (Sound here because the
continuations used start with a non-whitespace literal.) -/
def wsPlusThen (k : List Char → Bool) : List Char → Bool
  | [] => false
  | c :: cs => c.isWhitespace && k (cs.dropWhile Char.isWhitespace)

/-! ## Data model: plans, verbatims, match results -/

/-- A member of a plan cluster, as consumed by the reply builders
(`display_title` and `url` are the only fields they read). -/
structure SubPlan where
  displayTitle : String
  url : String
deriving DecidableEq

/-- A plan record from `plans.json` as read by `matching.py` /
`plan_bot.py`.  `isCluster` models `plan.get("is_cluster")` (absent key
defaults to false); `members` models the `"plans"` list of a cluster. -/
structure Plan where
  id : String
  topic : String
  displayTitle : String
  url : String
  summary : String
  isCluster : Bool
  members : List SubPlan
deriving DecidableEq

/-- A verbatim (canned) reply record. -/
structure Verbatim where
  id : String
  text : String
deriving DecidableEq

/-- One entry of the ranked `potential_matches` list produced by
`Strategy._gensim_similarity`: `{"plan_id": ..., "plan": ..., "confidence": ...}`.
`plan` is `Option` because the source uses `next(filter(...), None)`. -/
structure PotentialMatch where
  planId : String
  plan : Option Plan
  confidence : ℚ
deriving DecidableEq

/-- A strategy result dictionary.  Every field is optional: Python
strategies return dicts and callers read them with `.get`, so a missing
key reads as `None` (= `none`). -/
structure MatchResult where
  matchId : Option String := none
  confidence : Option ℚ := none
  plan : Option Plan := none
  potentialMatches : Option (List PotentialMatch) := none
  operation : Option String := none
  verbatim : Option Verbatim := none
deriving DecidableEq

/-- Python truthiness of an optional string field (`if match:`):
present and non-empty. -/
def truthyStr (o : Option String) : Bool := o.getD "" != ""

/-! ## Rule strategies (`RuleStrategy` in `matching.py`) -/

/-- `re.match(r"why warren\W*$", post_text, re.IGNORECASE | re.MULTILINE)`. -/
def why_warren_requested (s : String) : Bool :=
  afterPat "why warren".toList tailOK s.toList

/-- `re.match(r"(advanced\s+)?help\W*$", ...)`, returning the verbatim id
selected by `RuleStrategy.match_verbatim`'s help branch.  The optional
group is tried greedily; when the text starts with `advanced` the
backtracking alternative (`help` at position 0) can never match. -/
def match_help (s : String) : Option String :=
  match stripPrefixCI "advanced".toList s.toList with
  | some r =>
      if wsPlusThen (afterPat "help".toList tailOK) r then some "advanced_help" else none
  | none =>
      if afterPat "help".toList tailOK s.toList then some "basic_help" else none

/-- `RuleStrategy.match_verbatim`: select a verbatim id from the options
set or the anchored patterns, then return a result only if a verbatim
with that id exists in the corpus (the Python `for`/`if` loop falls
through to an implicit `None` otherwise). -/
def match_verbatim (verbatims : List Verbatim) (postText : String)
    (options : List String) : Option MatchResult :=
  let verbatimId : Option String :=
    if "why_warren" ∈ options || why_warren_requested postText then some "why_warren"
    else match_help postText
  (verbatims.find? (fun v => verbatimId == some v.id)).map fun v =>
    { operation := some "verbatim", verbatim := some v }

/-- `re.search(r"show me the plans\W*$", ...)` at some position. -/
def showMeThePlansHere : List Char → Bool :=
  afterPat "show me the plans".toList tailOK

/-- `RuleStrategy.request_plan_list`. -/
def request_plan_list (plans : List Plan) (postText : String) : Option MatchResult :=
  if searchAny showMeThePlansHere postText.toList then
    some { operation := some "all_the_plans" }
  else none

/-- `(?:race|primary)\W*$` from here. -/
def raceOrPrimaryTail (l : List Char) : Bool :=
  afterPat "race".toList tailOK l || afterPat "primary".toList tailOK l

/-- `state of (?:the )?(?:race|primary)\W*$` at this position (the
optional group is resolved by trying both alternatives). -/
def stateOfRaceHere (l : List Char) : Bool :=
  afterPat "state of ".toList
    (fun r =>
      (match stripPrefixCI "the ".toList r with
       | some r2 => raceOrPrimaryTail r2
       | none => false)
      || raceOrPrimaryTail r) l

/-- `is the (?:race|primary) over\W*$` at this position. -/
def isRaceOverHere (l : List Char) : Bool :=
  afterPat "is the ".toList
    (fun r => afterPat "race over".toList tailOK r
      || afterPat "primary over".toList tailOK r) l

/-- `status check\W*$` at this position. -/
def statusCheckHere : List Char → Bool :=
  afterPat "status check".toList tailOK

/-- `RuleStrategy.request_state_of_race`. -/
def request_state_of_race (plans : List Plan) (postText : String)
    (options : List String) : Option MatchResult :=
  if "state_of_race" ∈ options
      || searchAny stateOfRaceHere postText.toList
      || searchAny isRaceOverHere postText.toList
      || searchAny statusCheckHere postText.toList then
    some { operation := some "state_of_race" }
  else none

/-- `RuleStrategy.match_display_title`.  `pp` is
`Preprocess.preprocess_gensim_v1`, the gensim preprocessing pipeline
(unidecode → lower → punctuation/whitespace/numeral stripping → stopword
removal → short-token removal → Porter stemming); it is external library
code composed in `matching.py`, so it is passed as an opaque
string-to-token-list function. -/
def match_display_title (pp : String → List String) (plans : List Plan)
    (postText : String) : Option MatchResult :=
  (plans.find? (fun p => pp p.displayTitle == pp postText)).map fun p =>
    { matchId := some p.id, confidence := some (100 : ℚ), plan := some p }

/-! ## Semantic Matching Engine (`Strategy._gensim_similarity`)

The external artifacts (dictionary, trained transform, similarity index)
are opaque: the engine's behaviour depends on them only through the raw
per-corpus-position similarity scores `index[model[vec_post]]`, which we
take as an input list of rationals, and through the parallel id list
`plan_ids.json`, taken as an input list of strings.  A raised Python
exception is modelled as `Except.error`. -/

/-- The only exception `_gensim_similarity` itself can raise on the
modelled path: an out-of-range list subscript (`plan_ids[sim[0]]` or
`potential_matches[0]`). -/
inductive GensimError where
  | indexError
deriving DecidableEq

/-- Python `enumerate`, starting at `n`. -/
def pyEnum : Nat → List ℚ → List (Nat × ℚ)
  | _, [] => []
  | n, x :: xs => (n, x) :: pyEnum (n + 1) xs

/-- Stable insertion of an earlier element into an already-sorted (by
strictly-greater score walk) list: walk past `y` only while `y`'s score
is strictly greater, so an element inserted from the left lands before
all equal-score elements, reproducing the stability of Python's
`sorted(..., key=lambda item: -item[1])`. -/
def insertDesc (x : Nat × ℚ) : List (Nat × ℚ) → List (Nat × ℚ)
  | [] => [x]
  | y :: ys => if y.2 > x.2 then y :: insertDesc x ys else x :: y :: ys

/-- Stable sort by descending score (ties keep original order), the
behaviour of `sorted(enumerate(sims), key=lambda item: -item[1])`. -/
def sortDesc : List (Nat × ℚ) → List (Nat × ℚ)
  | [] => []
  | x :: xs => insertDesc x (sortDesc xs)

/-- `plan_ids[i]` with Python semantics: `IndexError` when out of range. -/
def idxLookup (planIds : List String) (i : Nat) : Except GensimError String :=
  match planIds.get? i with
  | some s => .ok s
  | none => .error .indexError

/-- One element of the `potential_matches_with_dups` comprehension. -/
def toPotentialMatch (plans : List Plan) (planIds : List String)
    (sim : Nat × ℚ) : Except GensimError PotentialMatch :=
  (idxLookup planIds sim.1).map fun pid =>
    { planId := pid
      plan := plans.find? (fun p => p.id == pid)
      confidence := sim.2 * 100 }

/-- Left-to-right effectful map, as a Python list comprehension: the
first raised exception aborts the whole comprehension. -/
def mapExcept (f : α → Except ε β) : List α → Except ε (List β)
  | [] => .ok []
  | a :: as =>
      match f a with
      | .error e => .error e
      | .ok b =>
          match mapExcept f as with
          | .error e => .error e
          | .ok bs => .ok (b :: bs)

/-- The dedupe loop of `_gensim_similarity`: keep the first occurrence of
each plan id (`potential_plan_ids` is the `seen` set). -/
def dedupePMs : List PotentialMatch → List String → List PotentialMatch
  | [], _ => []
  | m :: ms, seen =>
      if m.planId ∈ seen then dedupePMs ms seen
      else m :: dedupePMs ms (m.planId :: seen)

/-- `Strategy._gensim_similarity`, given the corpus similarity scores.
Mirrors the source: enumerate and stable-sort the scores descending,
build the (possibly duplicated) ranked candidate list, dedupe by plan
id, take `potential_matches[0]` as the best match (an `IndexError` when
there are no candidates), and filter the retained `potential_matches` by
the strictly-greater potential-plan threshold. -/
def gensim_similarity (plans : List Plan) (planIds : List String)
    (scores : List ℚ) (threshold potentialPlanThreshold : ℚ) :
    Except GensimError MatchResult :=
  match mapExcept (toPotentialMatch plans planIds) (sortDesc (pyEnum 0 scores)) with
  | .error e => .error e
  | .ok withDups =>
      match dedupePMs withDups [] with
      | [] => .error .indexError
      | best :: rest =>
          .ok { matchId := if best.confidence > threshold then some best.planId else none
                confidence := some best.confidence
                plan := best.plan
                potentialMatches :=
                  some ((best :: rest).filter
                    (fun m => m.confidence > potentialPlanThreshold)) }

/-! ## Flag extraction (`process_flags` in `plan_bot.py`)

`process_flags` delegates to `argparse` (CPython 3.8 semantics, the
interpreter generation the bot ran on) with three `store_true` long
options and a positional `rest` with `nargs=argparse.REMAINDER`.
`parse_known_args` proceeds in two phases.  First it eagerly classifies
every token (`_parse_optional`): an exact option string, an option
string with an explicit `=argument`, an unambiguous prefix of a long
option (`allow_abbrev` is on by default), an unknown option-like token,
or a positional; an ambiguous abbreviation aborts the parse wherever the
token appears (`parser.error` raises `SystemExit`), and a bare `--`
marks itself and every later token positional without classifying them.
Then it consumes recognised and unknown option tokens from the left —
a recognised `store_true` option carrying an explicit argument aborts
likewise, unknown options land in the discarded `extras` list — until
the first positional-classified token, from which the `REMAINDER`
positional swallows every remaining token verbatim (option-like or not,
with no further errors).  The raised `SystemExit` is modelled as
`Except.error`. -/

/-- The flag vocabulary with canonical destination names, exactly the
`add_argument` calls of `process_flags` (dest = first long option with
dashes replaced by underscores). -/
def flagAliases : List (String × String) :=
  [("--parent", "parent"), ("--tell-parent", "parent"),
   ("--why-warren", "why_warren"),
   ("--state-of-race", "state_of_race"), ("--state-of-the-race", "state_of_race"),
   ("--status-check", "state_of_race")]

/-- Exact option-string lookup (argparse's exact-match step; prefix
abbreviation is handled separately in `classify`). -/
def canonicalFlag (t : String) : Option String :=
  (flagAliases.find? (fun a => a.1 == t)).map (fun a => a.2)

/-- argparse's negative-number matcher `^-\d+$|^-\d*\.\d+$` (the parser
has no negative-number-looking options, so such tokens are positional). -/
def isNegNumToken (t : String) : Bool :=
  match t.toList with
  | '-' :: rest =>
      (rest ≠ [] && rest.all Char.isDigit)
      || (match rest.dropWhile Char.isDigit with
          | '.' :: frac => frac ≠ [] && frac.all Char.isDigit
          | _ => false)
  | _ => false

/-- The parser's option strings. -/
def optionStrings : List String := flagAliases.map (fun a => a.1)

/-- The destination of a full option string. -/
def destOf (o : String) : String := (canonicalFlag o).getD ""

/-- Split a token at its first `=` (`arg_string.split('=', 1)`);
`acc` is the prefix read so far, reversed. -/
def splitEqAux : List Char → List Char → Option (List Char × List Char)
  | [], _ => none
  | c :: cs, acc => if c == '=' then some (acc.reverse, cs) else splitEqAux cs (c :: acc)

def splitEq (t : String) : Option (String × String) :=
  (splitEqAux t.toList []).map (fun p => (String.mk p.1, String.mk p.2))

/-- Character-level prefix test (`option_string.startswith(option_prefix)`). -/
def isPrefixOfStr (p s : String) : Bool := List.isPrefixOf p.toList s.toList

/-- A `SystemExit` raised by `parser.error` during flag parsing. -/
inductive ArgparseError where
  | ambiguousOption (t : String)
  | explicitArgIgnored (t : String)
deriving DecidableEq

/-- argparse's classification of one token: a recognised option (with
its destination and an optional explicit `=argument`), an unknown
option-like token (pattern `O`, action `None`), or a positional
(pattern `A`). -/
inductive TokCls where
  | option (dest : String) (explicitArg : Option String)
  | unknown
  | positional
deriving DecidableEq

/-- The tail of `_parse_optional` once no exact or `=`-exact match was
found: for long (`--`) tokens, `_get_option_tuples` abbreviation over
the option strings — a unique prefix is recognised, several matches call
`parser.error` — then the negative-number fallback, then the
unknown-option fallthrough.  This parser has no single-dash options, so
single-dash tokens produce no candidates. -/
def classifyPrefix (t : String) : Except ArgparseError TokCls :=
  match t.toList with
  | '-' :: '-' :: _ =>
      let oe : String × Option String :=
        match splitEq t with
        | some p => (p.1, some p.2)
        | none => (t, none)
      match optionStrings.filter (fun ow => isPrefixOfStr oe.1 ow) with
      | [] => if isNegNumToken t then .ok .positional else .ok .unknown
      | [ow] => .ok (.option (destOf ow) oe.2)
      | _ => .error (.ambiguousOption t)
  | _ => if isNegNumToken t then .ok .positional else .ok .unknown

/-- `_parse_optional` for this parser, in the source's test order:
empty / not dash-prefixed / exact option string / lone `-` /
exact option string before `=` / abbreviation and fallthrough. -/
def classify (t : String) : Except ArgparseError TokCls :=
  match t.toList with
  | [] => .ok .positional
  | c :: cs =>
      if c != '-' then .ok .positional
      else if t ∈ optionStrings then .ok (.option (destOf t) none)
      else if cs.isEmpty then .ok .positional
      else
        match splitEq t with
        | some p =>
            if p.1 ∈ optionStrings then .ok (.option (destOf p.1) (some p.2))
            else classifyPrefix t
        | none => classifyPrefix t

/-- The eager classification pass of `_parse_known_args`: every token is
classified up front, so an ambiguous abbreviation aborts wherever it
appears; a bare `--` marks itself and every later token positional
without classifying them. -/
def classifyTokens : List String → Except ArgparseError (List (String × TokCls))
  | [] => .ok []
  | t :: ts =>
      if t = "--" then
        .ok ((t, TokCls.positional) :: ts.map (fun u => (u, TokCls.positional)))
      else
        match classify t with
        | .error e => .error e
        | .ok c =>
            match classifyTokens ts with
            | .error e => .error e
            | .ok rest => .ok ((t, c) :: rest)

/-- The consumption loop of `_parse_known_args`: recognised and unknown
option tokens are taken from the left (a recognised `store_true` option
with an explicit argument raises `ignored explicit argument`; unknown
options land in the dropped `extras` list); the first
positional-classified token hands everything from there on to the
`REMAINDER` positional verbatim. -/
def consumeLeading :
    List (String × TokCls) → Except ArgparseError (List String × List String)
  | [] => .ok ([], [])
  | (t, c) :: ts =>
      match c with
      | .option dest explicitArg =>
          match explicitArg with
          | some _ => .error (.explicitArgIgnored t)
          | none =>
              match consumeLeading ts with
              | .error e => .error e
              | .ok r => .ok (dest :: r.1, r.2)
      | .unknown => consumeLeading ts
      | .positional => .ok ([], ((t, c) :: ts).map Prod.fst)

/-- Python `str.split()` (split on whitespace runs, dropping empties),
on a character list; `acc` is the current word, reversed. -/
def wordsAux : List Char → List Char → List (List Char)
  | [], acc => if acc = [] then [] else [acc.reverse]
  | c :: cs, acc =>
      if c.isWhitespace then
        if acc = [] then wordsAux cs [] else acc.reverse :: wordsAux cs []
      else wordsAux cs (c :: acc)

/-- Python `text.split()`. -/
def pySplit (text : String) : List String :=
  (wordsAux text.toList []).map (fun l => String.mk l)

/-- The destination names of the parser, in declaration order (the keys
of `vars(options)` after `del options.rest`). -/
def flagDests : List String := ["parent", "why_warren", "state_of_race"]

/-- `process_flags`: returns `(" ".join(options.rest), {flags set true})`,
or the `SystemExit` argparse raises.  The options set is represented
canonically as the sublist of `flagDests` that were seen (set semantics
are membership-only). -/
def process_flags (text : String) : Except ArgparseError (String × List String) :=
  match classifyTokens (pySplit text) with
  | .error e => .error e
  | .ok classified =>
      match consumeLeading classified with
      | .error e => .error e
      | .ok r => .ok (" ".intercalate r.2, flagDests.filter (fun d => d ∈ r.1))

/-- The destination a leading token contributes when argparse recognises
it as a bare (argument-less) option. -/
def recognizedDest (t : String) : Option String :=
  match classify t with
  | .ok (.option d none) => some d
  | _ => none

/-! ## Trigger-line extraction (`get_trigger_line`)

`re.findall(rf"!warrenplanbot[^-\w]+([^!?.]*[!?.]?)", text, re.IGNORECASE
| re.MULTILINE)`, taking the last capture.  All three quantified pieces
are greedy and never need to backtrack (each following piece matches
anything, including the empty string), so a single maximal-munch pass
per position is exact. -/

/-- The trigger word, lowercase. -/
def trigChars : List Char := "!warrenplanbot".toList

/-- `[^-\w]`: a separator character after the trigger word. -/
def sepOK (c : Char) : Bool := !isWordChar c && c != '-'

/-- A sentence terminator `[!?.]`. -/
def isTerminator (c : Char) : Bool := c == '!' || c == '?' || c == '.'

/-- Try the full trigger pattern at this position; on success return the
capture group and the remainder of the text after the whole match. -/
def matchTriggerAt (l : List Char) : Option (List Char × List Char) :=
  match stripPrefixCI trigChars l with
  | none => none
  | some r =>
      match r with
      | [] => none
      | c :: cs =>
          if sepOK c then
            let r2 := cs.dropWhile sepOK
            let cap := r2.takeWhile (fun ch => !isTerminator ch)
            let r3 := r2.dropWhile (fun ch => !isTerminator ch)
            match r3 with
            | [] => some (cap, [])
            | t :: ts => some (cap ++ [t], ts)
          else none

/-- `re.findall` scan: try the pattern at each position left to right;
on a match, record the capture and resume after the match.  Every match
consumes at least the trigger word, so `text.length + 1` fuel always
suffices; the fuel only bounds the recursion. -/
def findAllTriggerAux : Nat → List Char → List (List Char)
  | 0, _ => []
  | _ + 1, [] => []
  | fuel + 1, l@(_ :: cs) =>
      match matchTriggerAt l with
      | some (cap, rest) => cap :: findAllTriggerAux fuel rest
      | none => findAllTriggerAux fuel cs

/-- `get_trigger_line`: the last capture, or `""` when there is none. -/
def get_trigger_line (text : String) : String :=
  match (findAllTriggerAux (text.toList.length + 1) text.toList).getLast? with
  | some cap => String.mk cap
  | none => ""

/-- The trigger-present check of `process_post`:
`re.search("!warrenplanbot", post.text, re.IGNORECASE)`. -/
def trigger_present (text : String) : Bool := containsCI "!warrenplanbot" text

/-! ## Orchestration data model (`plan_bot.py`)

A Reddit post/comment as exposed by the `reddit_util` standardisation
layer (that module is not among the sources; its interface is modelled
from the spec's "message source" description: stable id, author identity
or absent, full text, type discriminator, lock state, parent reference,
and a reply operation). -/

/-- The message type discriminator. -/
inductive PostType where
  | submission
  | comment
deriving DecidableEq

/-- A standardised post or comment.  `author = none` models a deleted
author; `parentTargetId` models the target resolved by `post.parent()`
(present exactly when the object has a `parent` attribute, i.e. for
comments); `parentId`/`linkId` are the Reddit fullnames used by
`create_db_record`; `title` is present only for submissions. -/
structure Post where
  id : String
  type : PostType
  author : Option String
  text : String
  locked : Bool
  parentTargetId : Option String
  parentId : Option String
  linkId : Option String
  subredditName : String
  subredditDisplayName : String
  permalink : String
  title : Option String
deriving DecidableEq

/-- The Firestore server-assigned timestamp sentinel
(`firestore.SERVER_TIMESTAMP`). -/
inductive Timestamp where
  | server
deriving DecidableEq

/-- The audit record written by `create_db_record`. -/
structure DbRecord where
  processed : Bool
  processedTimestamp : Timestamp
  replied : Bool
  skipped : Bool
  skipReason : Option String
  type : PostType
  postId : String
  postAuthor : Option String
  postText : String
  postParentId : Option String
  postUrl : String
  postSubredditId : String
  postSubredditDisplayName : String
  postTitle : Option String
  postTopLevelParentId : Option String
  postLocked : Bool
  planMatch : Option String
  topPlanConfidence : Option ℚ
  topPlan : Option String
  verbatimId : Option String
  replyTimestamp : Option Timestamp
deriving DecidableEq

/-- `create_db_record`, with the source's parameter order and defaults.
The source reads `post.author.name` unconditionally; author display is
modelled as `Option.map` since the author can be absent (the `no_author`
skip path), where the standardised author is not a plain string. -/
def create_db_record (post : Post) (matchId : Option String)
    (planConfidence : Option ℚ) (planId : Option String)
    (verbatimId : Option String) (replyTimestamp : Option Timestamp)
    (replyMade processed skipped : Bool) (skipReason : Option String) : DbRecord :=
  { processed := processed
    processedTimestamp := .server
    replied := replyMade
    skipped := skipped
    skipReason := skipReason
    type := post.type
    postId := post.id
    postAuthor := post.author.map (fun a => "/u/" ++ a)
    postText := post.text
    postParentId := if post.type == .comment then post.parentId.map (fun s => s.drop 3) else none
    postUrl := "https://www.reddit.com" ++ post.permalink
    postSubredditId := post.subredditName.drop 3
    postSubredditDisplayName := post.subredditDisplayName
    postTitle := if post.type == .submission then post.title else none
    postTopLevelParentId := if post.type == .comment then post.linkId.map (fun s => s.drop 3) else none
    postLocked := post.locked
    planMatch := matchId
    topPlanConfidence := planConfidence
    topPlan := planId
    verbatimId := verbatimId
    replyTimestamp := replyTimestamp }

/-- The incremental `post_record_update` dictionary of `process_post`.
`replied` holds the raw `did_reply` value, which can itself be Python
`None` (neither sent nor simulated): the field value is an
`Option Bool`, and the outer `Option` records whether the key was set. -/
structure DbUpdate where
  replyType : Option String := none
  operation : Option String := none
  skipped : Option Bool := none
  skipReason : Option String := none
  replied : Option (Option Bool) := none
  replyTimestamp : Option Timestamp := none
deriving DecidableEq

/-- The externally visible effects of one `process_post` call, in
program order: a Firestore `document(id).set(record)`, a Firestore
`document(id).update(updates)`, the invocation of the matching-strategy
chain on the extracted query text, and an invocation of `reply` against
a target. -/
inductive Event where
  | dbSet (postId : String) (record : DbRecord)
  | dbUpdate (postId : String) (update : DbUpdate)
  | strategiesRun (postText : String)
  | replyAttempt (targetId : String) (text : String)
deriving DecidableEq

/-- The exceptions `process_post` can propagate: a praw `APIException`
with its `error_type`, or an ordinary Python error raised while building
the reply text (missing dict key / list index). -/
inductive BuildError where
  | missingPlan
  | missingVerbatim
  | indexError
deriving DecidableEq

inductive RunError where
  | api (errorType : String)
  | build (e : BuildError)
  | sysExit (e : ArgparseError)
deriving DecidableEq

/-- Whether the call returned normally or propagated an exception. -/
inductive Outcome where
  | completed
  | raised (e : RunError)
deriving DecidableEq

/-- A date, for `datetime.date.today()`. -/
structure Date where
  year : Nat
  month : Nat
  day : Nat
deriving DecidableEq

/-- Behaviour of the external reply channel (`post.reply(...)` on the
target): praw either accepts the reply or raises an `APIException` with
some `error_type`. -/
inductive ReplyBehavior where
  | succeeds
  | raises (errorType : String)

/-- The external collaborators of one run.  `llm` models
`build_llm_plan_response_text` from `llm.py` (not among the sources).
Modelled from the spec: an optional text-generation function
`(document, full_message_text) -> text | null`, best-effort, any failure
already folded into `none`. -/
structure Env where
  replyBehavior : String → ReplyBehavior
  llm : Plan → String → Option String
  today : Date

/-! ## Reply-text builders -/

/-- The shared reply footer. -/
def footer : String :=
  "\n\n\n***\nThis bot was created independently by volunteers. [Join us!](https://elizabethwarren.com/join-us) "

/-- `_plan_links`, on the (display title, url) projections its callers
supply. -/
def plan_links (items : List (String × String)) : String :=
  "\n".intercalate (items.map (fun i => "[" ++ i.1 ++ "](" ++ i.2 ++ ")  "))

/-- `build_response_text_plan_cluster`. -/
def build_response_text_plan_cluster (plan : Plan) : String :=
  "Senator Warren has quite a number of plans for that!\n\nLearn more about her plans for "
    ++ plan.displayTitle ++ ":\n\n"
    ++ plan_links (plan.members.map (fun m => (m.displayTitle, m.url)))
    ++ footer

/-- `build_response_text_pure_plan`. -/
def build_response_text_pure_plan (plan : Plan) : String :=
  "Senator Warren has a plan for that!\n\n" ++ plan.summary
    ++ "\n\nLearn more about her plan: [" ++ plan.displayTitle ++ "](" ++ plan.url ++ ")"
    ++ footer

/-- `build_plan_response_text`: cluster → static cluster text; otherwise
try the LLM enrichment and fall back to the static summary reply.
Returns `(response_text, reply_type)`. -/
def build_plan_response_text (env : Env) (plan : Plan) (fullPostText : String) :
    String × String :=
  if plan.isCluster then (build_response_text_plan_cluster plan, "plan_cluster")
  else
    match env.llm plan fullPostText with
    | some t => (t, "plan_llm")
    | none => (build_response_text_pure_plan plan, "plan")

/-- `build_verbatim_response_text`. -/
def build_verbatim_response_text (v : Verbatim) : String := v.text ++ footer

/-- `build_no_match_response_text`.  The suggestions branch reads
`match["plan"]["display_title"]` for the first 8 potential matches; an
absent plan raises (modelled as `BuildError.missingPlan`). -/
def build_no_match_response_text (potentialPlanMatches : List PotentialMatch) :
    Except BuildError String :=
  if potentialPlanMatches ≠ [] then do
    let plansList ← mapExcept
      (fun m => match m.plan with
        | some p => .ok p
        | none => .error BuildError.missingPlan)
      (potentialPlanMatches.take 8)
    .ok ("I\x27m not sure I have an exact match for you! Here are the plans that seem most relevant:\n\n"
      ++ plan_links (plansList.map (fun p => (p.displayTitle, p.url)))
      ++ "\n\nOr I can show you my full list of her plans if you reply with\n\n"
      ++ "```" ++ "!WarrenPlanBot show me the plans" ++ "```"
      ++ "\n\n" ++ footer)
  else
    .ok ("I\x27m not sure exactly which plan you\x27re looking for, and I\x27m not feeling confident enough in any of my guesses to tell you about them! \x27:(\n\n"
      ++ "I can show you my full list of her plans if you reply with\n\n"
      ++ "```" ++ "!WarrenPlanBot show me the plans" ++ "```"
      ++ "\n\nOr please kindly rephrase? \x27:D" ++ footer)

/-- The row loop of `build_all_plans_response_text` (from index 3 on). -/
def allPlansRows : Nat → List Plan → String
  | _, [] => ""
  | i, p :: ps =>
      "|[" ++ p.displayTitle ++ "](" ++ p.url ++ ")"
        ++ (if (i + 1) % 3 == 0 then "|\n" else "")
        ++ allPlansRows (i + 1) ps

/-- `build_all_plans_response_text`: indexes the first three non-cluster
plans directly, so fewer than three raises (`BuildError.indexError`). -/
def build_all_plans_response_text (plans : List Plan) : Except BuildError String :=
  match plans.filter (fun p => !p.isCluster) with
  | p0 :: p1 :: p2 :: rest =>
      .ok ("Here\x27s the full list of plans Sen. Warren has released that I know about:\n\n"
        ++ "|[" ++ p0.displayTitle ++ "](" ++ p0.url ++ ")|[" ++ p1.displayTitle ++ "](" ++ p1.url
        ++ ")|[" ++ p2.displayTitle ++ "](" ++ p2.url ++ ")|"
        ++ "\n|:-:|:-:|:-:|\n"
        ++ allPlansRows 3 rest
        ++ "\n\n" ++ footer)
  | _ => .error .indexError

/-- `day_suffix`. -/
def day_suffix (d : Nat) : String :=
  if 11 ≤ d ∧ d ≤ 13 then "th"
  else match d % 10 with
    | 1 => "st"
    | 2 => "nd"
    | 3 => "rd"
    | _ => "th"

/-- `%b`: English month abbreviation. -/
def monthAbbrev : Nat → String
  | 1 => "Jan" | 2 => "Feb" | 3 => "Mar" | 4 => "Apr" | 5 => "May" | 6 => "Jun"
  | 7 => "Jul" | 8 => "Aug" | 9 => "Sep" | 10 => "Oct" | 11 => "Nov" | 12 => "Dec"
  | _ => ""

/-- Strict calendar comparison `a > b`. -/
def dateAfter (a b : Date) : Bool :=
  a.year > b.year
    || (a.year == b.year && (a.month > b.month
        || (a.month == b.month && a.day > b.day)))

/-- `build_state_of_race_response_text`. -/
def build_state_of_race_response_text (today : Date) : String :=
  if dateAfter today ⟨2020, 3, 6⟩ then "rip."
  else
    let delegatePercentageLeft : Int := ((1 - (101 : ℚ) / 3979) * 100 + 1 / 2).floor
    "As of " ++ monthAbbrev today.month ++ " " ++ toString today.day ++ day_suffix today.day
      ++ ", only 101 out of 3,979 total delegates have been awarded in the primary. That means "
      ++ toString delegatePercentageLeft
      ++ "% of the delegates are still up for grabs!\n\n[Be part of Warren’s surge in support!](https://elizabethwarren.com/join-us)"

/-- `parent_reply_prefix` (the attribution line; the non-skip path
guarantees the author is present, `getD` totalises the access). -/
def parent_reply_line (post : Post) : String :=
  "/u/" ++ post.author.getD "" ++ " asked me to chime in!\n\n"

/-! ## The per-message orchestration (`process_post`) -/

/-- The ordered skip checks of `process_post` (lines 225-238): locked,
deleted author, own post, trigger absent — first true reason wins. -/
def skip_reason_of (post : Post) : Option String :=
  if post.locked then some "post_locked"
  else
    match post.author with
    | none => some "no_author"
    | some a =>
        if containsCI "warrenplanbot" a then some "own_post"
        else if !trigger_present post.text then some "trigger_not_found"
        else none

/-- The strategy chain of `process_post` (lines 250-256): the Python
`or`-chain over the fixed ordered strategy list.  A rule strategy's
`None` is falsy; any returned dict is truthy; the statistical strategy's
dict is returned whether or not it matched.  `stat` is the
`matching_strategy` parameter (default `Strategy.lsa_gensim_v3`, whose
behaviour depends on the external model artifacts). -/
def matchInfoOf (pp : String → List String) (verbatims : List Verbatim)
    (plans : List Plan) (text : String) (options : List String)
    (stat : List Plan → String → MatchResult) : MatchResult :=
  match match_verbatim verbatims text options with
  | some r => r
  | none =>
      match request_plan_list plans text with
      | some r => r
      | none =>
          match request_state_of_race plans text [] with
          | some r => r
          | none =>
              match match_display_title pp plans text with
              | some r => r
              | none => stat plans text

/-- Reply-text selection (`process_post` lines 276-303): build the reply
string and the first fields of `post_record_update`.  Propagated Python
exceptions (missing plan dict, missing verbatim dict, too few plans for
the full listing) are `Except.error`. -/
def selectReply (env : Env) (plans : List Plan) (post : Post)
    (mi : MatchResult) : Except BuildError (String × DbUpdate) :=
  if truthyStr mi.matchId then
    match mi.plan with
    | some plan =>
        let r := build_plan_response_text env plan post.text
        .ok (r.1, { replyType := some r.2 })
    | none => .error .missingPlan
  else if truthyStr mi.operation && mi.operation.getD "" == "verbatim" then
    match mi.verbatim with
    | some v =>
        .ok (build_verbatim_response_text v,
          { replyType := some "operation", operation := mi.operation })
    | none => .error .missingVerbatim
  else if truthyStr mi.operation && mi.operation.getD "" == "all_the_plans" then
    match build_all_plans_response_text plans with
    | .ok rs => .ok (rs, { replyType := some "operation", operation := mi.operation })
    | .error e => .error e
  else if truthyStr mi.operation && mi.operation.getD "" == "state_of_race" then
    .ok (build_state_of_race_response_text env.today,
      { replyType := some "operation", operation := mi.operation })
  else
    match build_no_match_response_text (mi.potentialMatches.getD []) with
    | .ok rs => .ok (rs, { replyType := some "no_match" })
    | .error e => .error e

/-- The reply target: `reply` swaps to the parent when the parent flag
is set and the post has a `parent` attribute. -/
def reply_target (post : Post) (parent : Bool) : String :=
  if parent && post.parentTargetId.isSome then post.parentTargetId.getD post.id
  else post.id

/-- Result of the core of `reply`: the returned `did_reply` (Python
`True` or an implicit `None`), or a raised `APIException`. -/
inductive ReplyRes where
  | ret (didReply : Option Bool)
  | raised (errorType : String)
deriving DecidableEq

/-- The core of `reply`: simulate wins over send; only an actual send
can raise; neither flag falls through to `return None`. -/
def reply_core (env : Env) (target : String) (send simulate : Bool) : ReplyRes :=
  if simulate then .ret (some true)
  else if send then
    match env.replyBehavior target with
    | .succeeds => .ret (some true)
    | .raises t => .raised t
  else .ret none

/-- Firestore writes are emitted only when tracking is on. -/
def trackEvents (skipTracking : Bool) (evs : List Event) : List Event :=
  if skipTracking then [] else evs

/-- Lines 321-324: set `replied` to the raw `did_reply`, and the
server timestamp exactly when `did_reply` is truthy. -/
def applyReplied (upd : DbUpdate) (didReply : Option Bool) : DbUpdate :=
  let u1 := { upd with replied := some didReply }
  if didReply.getD false then { u1 with replyTimestamp := some .server } else u1

/-- The reply attempt and second write (lines 309-327), producing the
tail of the event trace and the call outcome. -/
def afterDecision (env : Env) (plans : List Plan) (post : Post)
    (mi : MatchResult) (options : List String)
    (send simulate skipTracking : Bool) : List Event × Outcome :=
  match selectReply env plans post mi with
  | .error e => ([], .raised (.build e))
  | .ok rsUpd =>
      let rs := if "parent" ∈ options then parent_reply_line post ++ rsUpd.1 else rsUpd.1
      let target := reply_target post ("parent" ∈ options)
      match reply_core env target send simulate with
      | .raised t =>
          if t == "DELETED_COMMENT" then
            let upd := applyReplied
              { rsUpd.2 with skipped := some true, skipReason := some "deleted_comment" }
              (some false)
            (Event.replyAttempt target rs :: trackEvents skipTracking [.dbUpdate post.id upd],
              .completed)
          else ([Event.replyAttempt target rs], .raised (.api t))
      | .ret d =>
          (Event.replyAttempt target rs
              :: trackEvents skipTracking [.dbUpdate post.id (applyReplied rsUpd.2 d)],
            .completed)

/-- The observable result of one `process_post` call: its event trace,
its outcome, and the updated processed-id set (Python mutates the set
passed in; the model returns it). -/
structure PPResult where
  events : List Event
  outcome : Outcome
  processedIds : List String
deriving DecidableEq

/-- `process_post`.  Control flow mirrors the source: drop already
processed ids; add the id to the processed set; ordered skip checks
write a single skip record and return; otherwise extract the query text
and flags (a `SystemExit` from argparse propagates before any write or
strategy run), run the strategy chain, write the decision record, build
the reply, attempt it (converting only `DELETED_COMMENT` into a
recorded skip), and write the outcome update. -/
def process_post (env : Env) (pp : String → List String)
    (stat : List Plan → String → MatchResult)
    (plans : List Plan) (verbatims : List Verbatim) (post : Post)
    (postIdsProcessed : List String) (send simulate skipTracking : Bool) : PPResult :=
  if post.id ∈ postIdsProcessed then
    { events := [], outcome := .completed, processedIds := postIdsProcessed }
  else
    let processed := post.id :: postIdsProcessed
    match skip_reason_of post with
    | some reason =>
        { events := trackEvents skipTracking
            [.dbSet post.id (create_db_record post none none none none none false true true (some reason))]
          outcome := .completed
          processedIds := processed }
    | none =>
        match process_flags (get_trigger_line post.text) with
        | .error e =>
            { events := [], outcome := .raised (.sysExit e), processedIds := processed }
        | .ok po =>
            let mi := matchInfoOf pp verbatims plans po.1 po.2 stat
            let record := create_db_record post mi.matchId mi.confidence
              (mi.plan.map Plan.id) (mi.verbatim.map Verbatim.id) none false true false none
            let tail := afterDecision env plans post mi po.2 send simulate skipTracking
            { events := .strategiesRun po.1 :: (trackEvents skipTracking [.dbSet post.id record] ++ tail.1)
              outcome := tail.2
              processedIds := processed }

/-- Decidable equality for `Except` results, used to evaluate the
engine on concrete inputs. -/
instance {ε α : Type _} [DecidableEq ε] [DecidableEq α] : DecidableEq (Except ε α) :=
  fun a b =>
    match a, b with
    | .error e, .error f =>
        if h : e = f then .isTrue (by rw [h])
        else .isFalse (fun hc => h (by cases hc; rfl))
    | .error _, .ok _ => .isFalse (fun hc => Except.noConfusion hc)
    | .ok _, .error _ => .isFalse (fun hc => Except.noConfusion hc)
    | .ok x, .ok y =>
        if h : x = y then .isTrue (by rw [h])
        else .isFalse (fun hc => h (by cases hc; rfl))

/-! ## Predicates used to state the claims -/

/-- View a rule strategy's optional result as a result dictionary: a
miss is a result with every match field empty. -/
def ofRule : Option MatchResult → MatchResult
  | some r => r
  | none => {}

/-- A result is affirmative when its `match` or `operation` field is
non-empty (present rather than `None`). -/
def isAffirmative (r : MatchResult) : Bool :=
  r.matchId.isSome || r.operation.isSome

/-- Is this event a skip audit write with the given skip reason? -/
def skipSetWith (reason : String) : Event → Bool
  | .dbSet _ r => r.skipped && r.skipReason == some reason
  | _ => false

/-- A failed occurrence of the trigger word at this position: either the
trigger does not occur here, or it is followed by the end of the text or
by a word character or hyphen (so `[^-\w]+` cannot match). -/
def badTriggerOcc (l : List Char) : Bool :=
  match stripPrefixCI trigChars l with
  | none => true
  | some [] => true
  | some (c :: _) => !sepOK c

/-! ## Concrete instances used by witnesses and counterexamples -/

/-- A trivial stand-in for the external preprocessing pipeline. -/
def ppId : String → List String := fun s => [s]

/-- A statistical strategy whose result has no affirmative field. -/
def statEmpty : List Plan → String → MatchResult := fun _ _ => {}

/-- An environment whose reply channel always succeeds. -/
def envOk : Env :=
  { replyBehavior := fun _ => .succeeds, llm := fun _ _ => none, today := ⟨2020, 3, 1⟩ }

/-- A plain submission fixture. -/
def mkSubmission (id author text : String) (locked : Bool) : Post :=
  { id := id, type := .submission, author := some author, text := text, locked := locked,
    parentTargetId := none, parentId := none, linkId := none,
    subredditName := "t5_abcde", subredditDisplayName := "WPBSandbox",
    permalink := "/r/WPBSandbox/comments/1/x/", title := some "a post" }

/-- The verbatim corpus used by witnesses. -/
def verbatimsW : List Verbatim :=
  [{ id := "basic_help", text := "Here is some help." },
   { id := "advanced_help", text := "Here is advanced help." },
   { id := "why_warren", text := "Because." }]

/-- A non-cluster plan fixture. -/
def planGND : Plan :=
  { id := "green_new_deal", topic := "environment", displayTitle := "Green New Deal",
    url := "https://elizabethwarren.com/plans/green-new-deal", summary := "A summary.",
    isCluster := false, members := [] }

/-- A plan whose display title collides with the `status check` rule. -/
def planStatusCheck : Plan :=
  { id := "status_check_plan", topic := "status", displayTitle := "status check",
    url := "https://example.com/status", summary := "s", isCluster := false, members := [] }

/-- Counterexample post: locked and without the trigger word. -/
def postLockedNoTrigger : Post := mkSubmission "c5locked" "alice" "hello there" true

/-- Witness post: unlocked, authored, without the trigger word. -/
def postNoTrigger : Post := mkSubmission "c5plain" "alice" "hello there" false

/-- Witness post for the separator claim: the trigger word occurs only
at the very end of the text, so no separator can follow it. -/
def postBareTrigger : Post := mkSubmission "c10post" "alice" "hi !WarrenPlanBot" false

/-- The result the Semantic Matching Engine computes for id list
`["a", "b", "a"]`, scores `[2, 3, 2]`, thresholds 250/100 over an empty
plans list (used by a witness below). -/
def gensimResW : MatchResult :=
  { matchId := some "b", confidence := some 300, plan := none,
    potentialMatches := some [{ planId := "b", plan := none, confidence := 300 },
      { planId := "a", plan := none, confidence := 200 }] }

/-- The strict ranking relation realised by the stable descending sort
of the similarity scan: an earlier entry has a strictly greater score,
or an equal score and a smaller original corpus position. -/
def simRank (a b : Nat × ℚ) : Prop :=
  b.2 < a.2 ∨ (a.2 = b.2 ∧ a.1 < b.1)

/-! ## Theorems -/

theorem match_verbatim_affirmative {verbatims : List Verbatim} {t : String}
    {options : List String} {r : MatchResult}
    (h : match_verbatim verbatims t options = some r) : isAffirmative r = true := by
  unfold match_verbatim at h
  rcases Option.map_eq_some'.mp h with ⟨v, _, hv⟩
  subst hv
  rfl

theorem request_plan_list_affirmative {plans : List Plan} {t : String} {r : MatchResult}
    (h : request_plan_list plans t = some r) : isAffirmative r = true := by
  unfold request_plan_list at h
  split at h
  · cases h; rfl
  · cases h

theorem request_state_of_race_affirmative {plans : List Plan} {t : String}
    {options : List String} {r : MatchResult}
    (h : request_state_of_race plans t options = some r) : isAffirmative r = true := by
  unfold request_state_of_race at h
  split at h
  · cases h; rfl
  · cases h

theorem match_display_title_affirmative {pp : String → List String} {plans : List Plan}
    {t : String} {r : MatchResult}
    (h : match_display_title pp plans t = some r) : isAffirmative r = true := by
  unfold match_display_title at h
  rcases Option.map_eq_some'.mp h with ⟨p, _, hp⟩
  subst hp
  rfl

/-- C1: the strategy chain of `process_post`, run over the fixed ordered
list {verbatim rule, plan-list rule, state-of-race rule, exact-title
rule, statistical fallback} against the same query text, returns the
first result whose `match` or `operation` field is non-empty, and
otherwise the statistical strategy's full result (with its
`potential_matches` and `confidence`). -/
theorem c1_composite_first_affirmative (pp : String → List String)
    (verbatims : List Verbatim) (plans : List Plan) (text : String)
    (options : List String) (stat : List Plan → String → MatchResult) :
    matchInfoOf pp verbatims plans text options stat =
      (([ofRule (match_verbatim verbatims text options),
         ofRule (request_plan_list plans text),
         ofRule (request_state_of_race plans text []),
         ofRule (match_display_title pp plans text),
         stat plans text].find? isAffirmative).getD (stat plans text)) := by
  unfold matchInfoOf
  cases h1 : match_verbatim verbatims text options with
  | some r => simp [ofRule, List.find?, match_verbatim_affirmative h1]
  | none =>
    cases h2 : request_plan_list plans text with
    | some r =>
        have ha := request_plan_list_affirmative h2
        unfold isAffirmative at ha
        simp [ofRule, List.find?, isAffirmative, ha]
    | none =>
      cases h3 : request_state_of_race plans text [] with
      | some r =>
          have ha := request_state_of_race_affirmative h3
          unfold isAffirmative at ha
          simp [ofRule, List.find?, isAffirmative, ha]
      | none =>
        cases h4 : match_display_title pp plans text with
        | some r =>
            have ha := match_display_title_affirmative h4
            unfold isAffirmative at ha
            simp [ofRule, List.find?, isAffirmative, ha]
        | none =>
          cases haff : (stat plans text).matchId.isSome || (stat plans text).operation.isSome with
          | true => simp [ofRule, List.find?, isAffirmative, haff]
          | false => simp [ofRule, List.find?, isAffirmative, haff]

/-- C2 counterexample: with zero candidates (empty corpus and id list)
the Semantic Matching Engine raises an `IndexError` (from
`potential_matches[0]`) instead of returning a defensive result with
`match: null` and empty `potential_matches`; an `Except.error` models
the raised exception, refuting "does not raise an exception". -/
theorem c2_counterexample :
    gensim_similarity [] [] [] 0 0 = .error .indexError := by rfl

/-- C2 amended: for any plans, id list and thresholds, a query whose
similarity scan yields zero candidates makes `_gensim_similarity` raise
`IndexError` rather than returning `match: null` with an empty
`potential_matches` list. -/
theorem c2_amended_zero_candidates_raise (plans : List Plan)
    (planIds : List String) (threshold potentialPlanThreshold : ℚ) :
    gensim_similarity plans planIds [] threshold potentialPlanThreshold =
      .error .indexError := by rfl

theorem process_post_mem_processedIds (env : Env) (pp : String → List String)
    (stat : List Plan → String → MatchResult) (plans : List Plan)
    (verbatims : List Verbatim) (post : Post) (ids : List String)
    (send simulate skipTracking : Bool) :
    post.id ∈ (process_post env pp stat plans verbatims post ids
      send simulate skipTracking).processedIds := by
  unfold process_post
  split
  · simpa using (by assumption : post.id ∈ ids)
  · split
    · simp
    · split <;> simp

theorem process_post_already_processed (env : Env) (pp : String → List String)
    (stat : List Plan → String → MatchResult) (plans : List Plan)
    (verbatims : List Verbatim) (post : Post) (ids : List String)
    (send simulate skipTracking : Bool) (h : post.id ∈ ids) :
    process_post env pp stat plans verbatims post ids send simulate skipTracking =
      { events := [], outcome := .completed, processedIds := ids } := by
  unfold process_post
  rw [if_pos h]

/-- C4: a second `process_post` call on the same message id against the
processed-id set produced by the first call is a no-op: it emits no
event at all (no audit-store write, no strategy invocation, no reply
attempt), returns normally, and leaves the processed-id set unchanged. -/
theorem c4_second_invocation_noop (env : Env) (pp : String → List String)
    (stat : List Plan → String → MatchResult) (plans : List Plan)
    (verbatims : List Verbatim) (post : Post) (ids : List String)
    (send simulate skipTracking : Bool) :
    (process_post env pp stat plans verbatims post
        (process_post env pp stat plans verbatims post ids send simulate skipTracking).processedIds
        send simulate skipTracking).events = []
    ∧ (process_post env pp stat plans verbatims post
        (process_post env pp stat plans verbatims post ids send simulate skipTracking).processedIds
        send simulate skipTracking).outcome = .completed
    ∧ (process_post env pp stat plans verbatims post
        (process_post env pp stat plans verbatims post ids send simulate skipTracking).processedIds
        send simulate skipTracking).processedIds =
        (process_post env pp stat plans verbatims post ids send simulate skipTracking).processedIds := by
  rw [process_post_already_processed env pp stat plans verbatims post _ send simulate skipTracking
    (process_post_mem_processedIds env pp stat plans verbatims post ids send simulate skipTracking)]
  exact ⟨rfl, rfl, rfl⟩

/-- C5 counterexample: a locked message whose text lacks the trigger
word is audited with `skip_reason = "post_locked"`, not
`"trigger_not_found"`, because the lock check runs first — refuting the
claim for all messages lacking the trigger word. -/
theorem c5_counterexample :
    ((process_post envOk ppId statEmpty [] [] postLockedNoTrigger []
        false false false).events.any (skipSetWith "trigger_not_found")) = false
    ∧ ((process_post envOk ppId statEmpty [] [] postLockedNoTrigger []
        false false false).events.any (skipSetWith "post_locked")) = true
    ∧ trigger_present postLockedNoTrigger.text = false := by
  refine ⟨?_, ?_, ?_⟩ <;> decide

/-- C5 amended: for every message that passes the earlier skip checks
(not locked, has an author, not authored by the bot) and whose full text
lacks the trigger word, `process_post` (with tracking enabled) writes
exactly one audit record, with `processed = true`, `skipped = true` and
`skip_reason = "trigger_not_found"`, returns normally, and never invokes
any matching strategy or the reply channel.  (A message lacking the
trigger word but failing an earlier check is skipped with that earlier
reason instead; no strategy runs in that case either.) -/
theorem c5_amended_trigger_skip (env : Env) (pp : String → List String)
    (stat : List Plan → String → MatchResult) (plans : List Plan)
    (verbatims : List Verbatim) (post : Post) (ids : List String)
    (send simulate : Bool) (a : String)
    (hid : post.id ∉ ids) (hlock : post.locked = false)
    (hauth : post.author = some a)
    (hself : containsCI "warrenplanbot" a = false)
    (htrig : trigger_present post.text = false) :
    (process_post env pp stat plans verbatims post ids send simulate false).events =
      [.dbSet post.id (create_db_record post none none none none none false true true
        (some "trigger_not_found"))]
    ∧ (process_post env pp stat plans verbatims post ids send simulate false).outcome = .completed
    ∧ (∀ s, Event.strategiesRun s ∉
        (process_post env pp stat plans verbatims post ids send simulate false).events)
    ∧ (∀ t s, Event.replyAttempt t s ∉
        (process_post env pp stat plans verbatims post ids send simulate false).events)
    ∧ (create_db_record post none none none none none false true true
        (some "trigger_not_found")).processed = true
    ∧ (create_db_record post none none none none none false true true
        (some "trigger_not_found")).skipped = true
    ∧ (create_db_record post none none none none none false true true
        (some "trigger_not_found")).skipReason = some "trigger_not_found" := by
  have hskip : skip_reason_of post = some "trigger_not_found" := by
    unfold skip_reason_of
    rw [hlock, hauth]
    simp [hself, htrig]
  unfold process_post
  rw [if_neg hid, hskip]
  refine ⟨rfl, rfl, ?_, ?_, rfl, rfl, rfl⟩
  · intro s
    simp [trackEvents]
  · intro t s
    simp [trackEvents]

/-- C5 witness: a concrete unlocked, authored, non-bot message without
the trigger word, run through the amended theorem. -/
theorem c5_witness :
    (process_post envOk ppId statEmpty [] [] postNoTrigger [] false false false).events =
      [.dbSet postNoTrigger.id (create_db_record postNoTrigger none none none none none false true true
        (some "trigger_not_found"))]
    ∧ (process_post envOk ppId statEmpty [] [] postNoTrigger [] false false false).outcome = .completed
    ∧ (∀ s, Event.strategiesRun s ∉
        (process_post envOk ppId statEmpty [] [] postNoTrigger [] false false false).events)
    ∧ (∀ t s, Event.replyAttempt t s ∉
        (process_post envOk ppId statEmpty [] [] postNoTrigger [] false false false).events)
    ∧ (create_db_record postNoTrigger none none none none none false true true
        (some "trigger_not_found")).processed = true
    ∧ (create_db_record postNoTrigger none none none none none false true true
        (some "trigger_not_found")).skipped = true
    ∧ (create_db_record postNoTrigger none none none none none false true true
        (some "trigger_not_found")).skipReason = some "trigger_not_found" :=
  c5_amended_trigger_skip envOk ppId statEmpty [] [] postNoTrigger [] false false "alice"
    (by decide) (by decide) (by decide) (by decide) (by decide)

theorem process_post_nonskip (env : Env) (pp : String → List String)
    (stat : List Plan → String → MatchResult) (plans : List Plan)
    (verbatims : List Verbatim) (post : Post) (ids : List String)
    (send simulate skipTracking : Bool) (po : String × List String)
    (hid : post.id ∉ ids) (hskip : skip_reason_of post = none)
    (hfl : process_flags (get_trigger_line post.text) = .ok po) :
    process_post env pp stat plans verbatims post ids send simulate skipTracking =
      { events := .strategiesRun po.1 ::
          (trackEvents skipTracking
              [.dbSet post.id (create_db_record post
                (matchInfoOf pp verbatims plans po.1 po.2 stat).matchId
                (matchInfoOf pp verbatims plans po.1 po.2 stat).confidence
                ((matchInfoOf pp verbatims plans po.1 po.2 stat).plan.map Plan.id)
                ((matchInfoOf pp verbatims plans po.1 po.2 stat).verbatim.map Verbatim.id)
                none false true false none)]
            ++ (afterDecision env plans post
                (matchInfoOf pp verbatims plans po.1 po.2 stat)
                po.2 send simulate skipTracking).1)
        outcome := (afterDecision env plans post
            (matchInfoOf pp verbatims plans po.1 po.2 stat)
            po.2 send simulate skipTracking).2
        processedIds := post.id :: ids } := by
  unfold process_post
  rw [if_neg hid, hskip, hfl]

theorem afterDecision_error {env : Env} {plans : List Plan} {post : Post}
    {mi : MatchResult} {options : List String} {send simulate skipTracking : Bool}
    {e : BuildError} (hsel : selectReply env plans post mi = .error e) :
    afterDecision env plans post mi options send simulate skipTracking =
      ([], .raised (.build e)) := by
  unfold afterDecision
  rw [hsel]

theorem find?_isSome_of_mem {α} (p : α → Bool) (l : List α) (a : α)
    (ha : a ∈ l) (hpa : p a = true) : (l.find? p).isSome := by
  induction l with
  | nil => cases ha
  | cons x xs ih =>
      cases hx : p x with
      | true => rw [List.find?_cons_of_pos _ hx]; rfl
      | false =>
          rw [List.find?_cons_of_neg _ (by simp [hx])]
          rcases List.mem_cons.mp ha with rfl | hmem
          · rw [hx] at hpa; cases hpa
          · exact ih hmem

/-- C7 counterexample: a message whose trigger span is literally a plan's
display title ("status check", hence equal after any normalization) is
captured by the earlier state-of-race rule: the Composite Strategy
returns `operation = "state_of_race"` with no match and no confidence
100, refuting the claim as stated. -/
theorem c7_counterexample :
    ppId planStatusCheck.displayTitle = ppId "status check"
    ∧ planStatusCheck ∈ [planStatusCheck]
    ∧ (matchInfoOf ppId [] [planStatusCheck] "status check" [] statEmpty).matchId ≠
        some planStatusCheck.id
    ∧ (matchInfoOf ppId [] [planStatusCheck] "status check" [] statEmpty).confidence ≠
        some (100 : ℚ)
    ∧ (matchInfoOf ppId [] [planStatusCheck] "status check" [] statEmpty).operation =
        some "state_of_race" := by
  refine ⟨rfl, ?_, ?_, ?_, ?_⟩ <;> decide

/-- C7 amended: when none of the earlier rule strategies (verbatim,
plan-list, state-of-race) fires on the trigger span, a span whose
normalization equals some plan's normalized display title makes the
Composite Strategy return the first such plan with confidence 100,
regardless of what the statistical strategy would return. -/
theorem c7_amended_exact_title (pp : String → List String) (verbatims : List Verbatim)
    (plans : List Plan) (text : String) (options : List String)
    (stat : List Plan → String → MatchResult) (p : Plan)
    (h1 : match_verbatim verbatims text options = none)
    (h2 : request_plan_list plans text = none)
    (h3 : request_state_of_race plans text [] = none)
    (hp : p ∈ plans) (ht : pp p.displayTitle = pp text) :
    ∃ q, q ∈ plans ∧ pp q.displayTitle = pp text
      ∧ matchInfoOf pp verbatims plans text options stat =
          { matchId := some q.id, confidence := some (100 : ℚ), plan := some q } := by
  unfold matchInfoOf
  rw [h1, h2, h3]
  have hfind : (plans.find? (fun q => pp q.displayTitle == pp text)).isSome :=
    find?_isSome_of_mem _ plans p hp (by simp [ht])
  obtain ⟨q, hq⟩ := Option.isSome_iff_exists.mp hfind
  refine ⟨q, List.mem_of_find?_eq_some hq, ?_, ?_⟩
  · simpa using List.find?_some hq
  · unfold match_display_title
    rw [hq]
    rfl

/-- C7 witness: a span literally equal to a plan title on which no
earlier rule fires yields the title match with confidence 100. -/
theorem c7_witness :
    ∃ q, q ∈ [planGND] ∧ ppId q.displayTitle = ppId "Green New Deal"
      ∧ matchInfoOf ppId [] [planGND] "Green New Deal" [] statEmpty =
          { matchId := some q.id, confidence := some (100 : ℚ), plan := some q } :=
  c7_amended_exact_title ppId [] [planGND] "Green New Deal" [] statEmpty planGND
    (by decide) (by decide) (by decide) (by decide) rfl

theorem mem_insertDesc {x z : Nat × ℚ} :
    ∀ {l : List (Nat × ℚ)}, z ∈ insertDesc x l ↔ z = x ∨ z ∈ l := by
  intro l
  induction l with
  | nil => simp [insertDesc]
  | cons y ys ih =>
      unfold insertDesc
      split
      · simp only [List.mem_cons, ih]
        tauto
      · simp only [List.mem_cons]

theorem insertDesc_pairwise {x : Nat × ℚ} :
    ∀ {l : List (Nat × ℚ)}, l.Pairwise simRank → (∀ y ∈ l, x.1 < y.1) →
      (insertDesc x l).Pairwise simRank := by
  intro l
  induction l with
  | nil =>
      intro _ _
      simp [insertDesc, List.pairwise_singleton]
  | cons y ys ih =>
      intro hp hidx
      cases hp with
      | cons hy hys =>
        unfold insertDesc
        split
        · refine List.Pairwise.cons ?_ (ih hys (fun z hz => hidx z (List.mem_cons_of_mem _ hz)))
          intro z hz
          rcases mem_insertDesc.mp hz with rfl | hzys
          · exact Or.inl (by assumption)
          · exact hy z hzys
        · rename_i hnot
          have hle : y.2 ≤ x.2 := le_of_not_lt hnot
          refine List.Pairwise.cons ?_ (List.Pairwise.cons hy hys)
          intro z hz
          rcases List.mem_cons.mp hz with rfl | hzys
          · rcases lt_or_eq_of_le hle with hlt | heq
            · exact Or.inl hlt
            · exact Or.inr ⟨heq.symm, hidx z (List.mem_cons_self _ _)⟩
          · rcases hy z hzys with hlt | ⟨heq, hlti⟩
            · exact Or.inl (lt_of_lt_of_le hlt hle)
            · rcases lt_or_eq_of_le hle with hlt2 | heq2
              · exact Or.inl (by rw [← heq]; exact hlt2)
              · exact Or.inr ⟨by rw [← heq2, heq],
                  lt_trans (hidx y (List.mem_cons_self _ _)) hlti⟩

theorem mem_sortDesc {z : Nat × ℚ} :
    ∀ {l : List (Nat × ℚ)}, z ∈ sortDesc l ↔ z ∈ l := by
  intro l
  induction l with
  | nil => simp [sortDesc]
  | cons x xs ih =>
      unfold sortDesc
      rw [mem_insertDesc]
      simp [ih, eq_comm]

theorem sortDesc_pairwise :
    ∀ {l : List (Nat × ℚ)}, l.Pairwise (fun a b => a.1 < b.1) →
      (sortDesc l).Pairwise simRank := by
  intro l
  induction l with
  | nil => intro _; exact List.Pairwise.nil
  | cons x xs ih =>
      intro hp
      cases hp with
      | cons hx hxs =>
        unfold sortDesc
        exact insertDesc_pairwise (ih hxs) (fun y hy => hx y (mem_sortDesc.mp hy))

theorem pyEnum_ge (n : Nat) (l : List ℚ) : ∀ y ∈ pyEnum n l, n ≤ y.1 := by
  induction l generalizing n with
  | nil => intro y h; cases h
  | cons x xs ih =>
      intro y h
      unfold pyEnum at h
      rcases List.mem_cons.mp h with rfl | h2
      · exact le_refl _
      · exact Nat.le_of_succ_le (ih (n + 1) y h2)

theorem pyEnum_indices (n : Nat) (l : List ℚ) :
    (pyEnum n l).Pairwise (fun a b => a.1 < b.1) := by
  induction l generalizing n with
  | nil => exact List.Pairwise.nil
  | cons x xs ih =>
      unfold pyEnum
      refine List.Pairwise.cons ?_ (ih (n + 1))
      intro y hy
      have := pyEnum_ge (n + 1) xs y hy
      omega

theorem mapExcept_forall₂ {α β ε : Type _} {f : α → Except ε β} :
    ∀ {l : List α} {l' : List β}, mapExcept f l = .ok l' →
      List.Forall₂ (fun a b => f a = .ok b) l l' := by
  intro l
  induction l with
  | nil =>
      intro l' h
      unfold mapExcept at h
      injection h with h
      subst h
      exact List.Forall₂.nil
  | cons a as ih =>
      intro l' h
      unfold mapExcept at h
      cases hfa : f a with
      | error e => rw [hfa] at h; cases h
      | ok b =>
          rw [hfa] at h
          cases hrest : mapExcept f as with
          | error e => rw [hrest] at h; cases h
          | ok bs =>
              rw [hrest] at h
              injection h with h
              subst h
              exact List.Forall₂.cons hfa (ih hrest)

theorem forall₂_mem_right {α β : Type _} {R : α → β → Prop} :
    ∀ {l : List α} {l' : List β}, List.Forall₂ R l l' → ∀ d ∈ l', ∃ c ∈ l, R c d := by
  intro l l' hf
  induction hf with
  | nil => intro d hd; cases hd
  | cons hab _ ih =>
      intro d hd
      rcases List.mem_cons.mp hd with rfl | hd2
      · exact ⟨_, List.mem_cons_self _ _, hab⟩
      · obtain ⟨c, hc, hcd⟩ := ih d hd2
        exact ⟨c, List.mem_cons_of_mem _ hc, hcd⟩

theorem pairwise_transfer {α β : Type _} {R : α → β → Prop} {S : α → α → Prop}
    {T : β → β → Prop} :
    ∀ {l : List α} {l' : List β}, List.Forall₂ R l l' → l.Pairwise S →
      (∀ a b c d, R a b → R c d → S a c → T b d) → l'.Pairwise T := by
  intro l l' hf
  induction hf with
  | nil => intro _ _; exact List.Pairwise.nil
  | cons hab hf2 ih =>
      intro hp h
      cases hp with
      | cons hhead htail =>
        refine List.Pairwise.cons ?_ (ih htail h)
        intro d hd
        obtain ⟨c, hc, hcd⟩ := forall₂_mem_right hf2 d hd
        exact h _ _ _ _ hab hcd (hhead c hc)

theorem toPotentialMatch_confidence {plans : List Plan} {planIds : List String}
    {a : Nat × ℚ} {b : PotentialMatch}
    (h : toPotentialMatch plans planIds a = .ok b) : b.confidence = a.2 * 100 := by
  unfold toPotentialMatch at h
  cases hl : idxLookup planIds a.1 with
  | error e => rw [hl] at h; cases h
  | ok pid =>
      rw [hl] at h
      injection h with h
      subst h
      rfl

theorem dedupePMs_sublist : ∀ (l : List PotentialMatch) (seen : List String),
    List.Sublist (dedupePMs l seen) l := by
  intro l
  induction l with
  | nil => intro seen; exact List.Sublist.refl _
  | cons m ms ih =>
      intro seen
      unfold dedupePMs
      split
      · exact List.Sublist.cons _ (ih seen)
      · exact List.Sublist.cons₂ _ (ih (m.planId :: seen))

theorem dedupePMs_nodup : ∀ (l : List PotentialMatch) (seen : List String),
    ((dedupePMs l seen).map PotentialMatch.planId).Nodup
    ∧ ∀ x ∈ dedupePMs l seen, x.planId ∉ seen := by
  intro l
  induction l with
  | nil => intro seen; exact ⟨List.nodup_nil, by intro x hx; cases hx⟩
  | cons m ms ih =>
      intro seen
      unfold dedupePMs
      split
      · exact ih seen
      · rename_i hnot
        obtain ⟨hnd, hseen⟩ := ih (m.planId :: seen)
        constructor
        · refine List.Nodup.cons ?_ hnd
          intro hmem
          obtain ⟨x, hx, hxid⟩ := List.mem_map.mp hmem
          exact hseen x hx (by rw [hxid]; exact List.mem_cons_self _ _)
        · intro x hx
          rcases List.mem_cons.mp hx with rfl | hx2
          · exact hnot
          · intro hxs
            exact hseen x hx2 (List.mem_cons_of_mem _ hxs)

/-- C6: whenever the Semantic Matching Engine returns (rather than
raising), its `potential_matches` list has pairwise-distinct plan ids,
is sorted by non-increasing confidence, and contains only entries whose
confidence strictly exceeds the potential-match threshold; moreover the
underlying descending similarity ranking breaks score ties by original
corpus position (stable sort). -/
theorem c6_potential_matches_invariants (plans : List Plan) (planIds : List String)
    (scores : List ℚ) (threshold pth : ℚ) (r : MatchResult)
    (h : gensim_similarity plans planIds scores threshold pth = .ok r) :
    (∃ l, r.potentialMatches = some l
      ∧ (l.map PotentialMatch.planId).Nodup
      ∧ l.Pairwise (fun a b => b.confidence ≤ a.confidence)
      ∧ ∀ e ∈ l, pth < e.confidence)
    ∧ (sortDesc (pyEnum 0 scores)).Pairwise simRank := by
  have hsorted : (sortDesc (pyEnum 0 scores)).Pairwise simRank :=
    sortDesc_pairwise (pyEnum_indices 0 scores)
  refine ⟨?_, hsorted⟩
  unfold gensim_similarity at h
  split at h
  · cases h
  · rename_i withDups hm
    split at h
    · cases h
    · rename_i best rest hpm
      injection h with h
      subst h
      refine ⟨(best :: rest).filter (fun m => m.confidence > pth), rfl, ?_, ?_, ?_⟩
      · have hnd : ((best :: rest).map PotentialMatch.planId).Nodup := by
          rw [← hpm]
          exact (dedupePMs_nodup withDups []).1
        exact hnd.sublist (((best :: rest).filter_sublist).map PotentialMatch.planId)
      · have hwd : withDups.Pairwise (fun a b => b.confidence ≤ a.confidence) := by
          refine pairwise_transfer (mapExcept_forall₂ hm) hsorted ?_
          intro a b c d hab hcd hs
          rw [toPotentialMatch_confidence hab, toPotentialMatch_confidence hcd]
          rcases hs with hlt | ⟨heq, _⟩
          · have : c.2 ≤ a.2 := le_of_lt hlt
            nlinarith
          · rw [heq]
        have hbr : (best :: rest).Pairwise (fun a b => b.confidence ≤ a.confidence) := by
          rw [← hpm]
          exact hwd.sublist (dedupePMs_sublist withDups [])
        exact hbr.sublist ((best :: rest).filter_sublist)
      · intro e he
        have := (List.mem_filter.mp he).2
        simpa using this

/-- C6 witness: a duplicate-id corpus with a score tie, evaluated
concretely through the theorem. -/
theorem c6_witness :
    (∃ l, gensimResW.potentialMatches = some l
      ∧ (l.map PotentialMatch.planId).Nodup
      ∧ l.Pairwise (fun a b => b.confidence ≤ a.confidence)
      ∧ ∀ e ∈ l, (100 : ℚ) < e.confidence)
    ∧ (sortDesc (pyEnum 0 [2, 3, 2])).Pairwise simRank :=
  c6_potential_matches_invariants [] ["a", "b", "a"] [2, 3, 2] 250 100 gensimResW
    (by norm_num [gensim_similarity, pyEnum, sortDesc, insertDesc, mapExcept,
      toPotentialMatch, idxLookup, dedupePMs, gensimResW, Except.map, List.filter])

theorem ne_ddash_of_classify_ok {t : String} {c : TokCls}
    (hc : classify t = Except.ok c) : t ≠ "--" := by
  intro he
  rw [he] at hc
  rw [(by decide : classify "--" =
    Except.error (ArgparseError.ambiguousOption "--"))] at hc
  exact Except.noConfusion hc

theorem classifyTokens_ok_of_all (l : List String)
    (h : ∀ t ∈ l, ∃ c, classify t = Except.ok c) :
    ∃ out, classifyTokens l = .ok out ∧ out.map Prod.fst = l := by
  induction l with
  | nil => exact ⟨[], rfl, rfl⟩
  | cons t ts ih =>
      obtain ⟨c, hc⟩ := h t (List.mem_cons_self _ _)
      obtain ⟨out, ho, hm⟩ := ih (fun u hu => h u (List.mem_cons_of_mem _ hu))
      refine ⟨(t, c) :: out, ?_, by simp [hm]⟩
      unfold classifyTokens
      simp only [if_neg (ne_ddash_of_classify_ok hc), hc, ho]

theorem consumeLeading_of_leading (lead rest : List String)
    (hl : ∀ t ∈ lead, classify t = Except.ok TokCls.unknown
      ∨ ∃ d, classify t = Except.ok (TokCls.option d none))
    (hr : ∀ r rs, rest = r :: rs → classify r = Except.ok TokCls.positional)
    (hro : ∀ t ∈ rest, ∃ c, classify t = Except.ok c) :
    ∃ out, classifyTokens (lead ++ rest) = .ok out
      ∧ consumeLeading out = .ok (lead.filterMap recognizedDest, rest) := by
  induction lead with
  | nil =>
      simp only [List.nil_append, List.filterMap_nil]
      cases rest with
      | nil => exact ⟨[], rfl, rfl⟩
      | cons r rs =>
          have hrc := hr r rs rfl
          obtain ⟨out, ho, hm⟩ := classifyTokens_ok_of_all rs
            (fun u hu => hro u (List.mem_cons_of_mem _ hu))
          refine ⟨(r, TokCls.positional) :: out, ?_, ?_⟩
          · unfold classifyTokens
            simp only [if_neg (ne_ddash_of_classify_ok hrc), hrc, ho]
          · simp only [consumeLeading, List.map_cons, hm]
  | cons t ts ih =>
      obtain ⟨out, ho, hc2⟩ := ih (fun u hu => hl u (List.mem_cons_of_mem _ hu))
      rcases hl t (List.mem_cons_self _ _) with hu | ⟨d, hd⟩
      · refine ⟨(t, TokCls.unknown) :: out, ?_, ?_⟩
        · rw [List.cons_append]
          unfold classifyTokens
          simp only [if_neg (ne_ddash_of_classify_ok hu), hu, ho]
        · have hrd : recognizedDest t = none := by
            simp [recognizedDest, hu]
          simp only [consumeLeading, hc2, List.filterMap_cons, hrd]
      · refine ⟨(t, TokCls.option d none) :: out, ?_, ?_⟩
        · rw [List.cons_append]
          unfold classifyTokens
          simp only [if_neg (ne_ddash_of_classify_ok hd), hd, ho]
        · have hrd : recognizedDest t = some d := by
            simp [recognizedDest, hd]
          simp only [consumeLeading, hc2, List.filterMap_cons, hrd]

/-- C8 counterexample: in `"health --parent care"` the first token is
positional, so argparse's `REMAINDER` positional swallows everything —
including the later `--parent` token: nothing is removed and the
`parent` option is not set, refuting "removes every recognized flag
token wherever it appears". -/
theorem c8_counterexample :
    process_flags "health --parent care" = .ok ("health --parent care", [])
    ∧ process_flags "health --parent care" ≠ .ok ("health care", ["parent"]) := by
  constructor <;> decide

/-- C8 amended: flag extraction consumes only the leading run of tokens
argparse classifies as options — a token it recognises as one of the
declared option strings, exactly or as an unambiguous `--`-prefix
abbreviation, sets that option's destination, and an unrecognised
option-like token is silently dropped — while every token from the
first positional-classified token onward, including any option-like
tokens among them, is kept verbatim, in original order, in
`remaining_text`, with no option set and no error raised there.  (The
hypotheses pin each leading token to a classification that consumes
without error; an ambiguous abbreviation or an explicit `=`-argument on
a leading recognised flag instead aborts with `SystemExit`, and then
`process_flags` returns no value at all.) -/
theorem c8_amended_leading_flags (text : String) (leading rest : List String)
    (hw : pySplit text = leading ++ rest)
    (hl : ∀ t ∈ leading, classify t = Except.ok TokCls.unknown
      ∨ ∃ d, classify t = Except.ok (TokCls.option d none))
    (hr : ∀ r rs, rest = r :: rs → classify r = Except.ok TokCls.positional)
    (hro : ∀ t ∈ rest, ∃ c, classify t = Except.ok c) :
    process_flags text =
      .ok (" ".intercalate rest,
        flagDests.filter (fun d => d ∈ leading.filterMap recognizedDest)) := by
  obtain ⟨out, ho, hc⟩ := consumeLeading_of_leading leading rest hl hr hro
  unfold process_flags
  rw [hw]
  simp only [ho, hc]

/-- C8 witness: the abbreviated leading flag `--par` is recognised as
`--parent`, while the full flag token `--why-warren` after the first
plain word survives verbatim in `remaining_text` and sets no option. -/
theorem c8_witness :
    process_flags "--par health --why-warren" =
      .ok (" ".intercalate ["health", "--why-warren"],
        flagDests.filter (fun d => d ∈ (["--par"].filterMap recognizedDest))) :=
  c8_amended_leading_flags "--par health --why-warren" ["--par"]
    ["health", "--why-warren"] (by decide)
    (by
      intro t ht
      rw [List.mem_singleton] at ht
      subst ht
      exact Or.inr ⟨"parent", by decide⟩)
    (by intro r rs h; cases h; decide)
    (by
      intro t ht
      rcases List.mem_cons.mp ht with h | h
      · subst h
        exact ⟨TokCls.positional, by decide⟩
      · rw [List.mem_singleton] at h
        subst h
        exact ⟨TokCls.option "why_warren" none, by decide⟩)

theorem matchTriggerAt_none_of_bad {l : List Char} (h : badTriggerOcc l = true) :
    matchTriggerAt l = none := by
  unfold badTriggerOcc at h
  unfold matchTriggerAt
  cases hs : stripPrefixCI trigChars l with
  | none => rfl
  | some r =>
      rw [hs] at h
      cases r with
      | nil => rfl
      | cons c cs =>
          simp only [Bool.not_eq_true'] at h
          simp [h]

theorem findAllTrigger_nil_of_bad :
    ∀ (fuel : Nat) (l : List Char), allPositionsOk badTriggerOcc l = true →
      findAllTriggerAux fuel l = [] := by
  intro fuel
  induction fuel with
  | zero => intro l _; rfl
  | succ n ih =>
      intro l hall
      cases l with
      | nil => rfl
      | cons c cs =>
          unfold allPositionsOk at hall
          obtain ⟨h1, h2⟩ := Bool.and_eq_true_iff.mp hall
          unfold findAllTriggerAux
          rw [matchTriggerAt_none_of_bad h1]
          exact ih cs h2

/-- C10: when the trigger word occurs in the text but every occurrence
is immediately followed by a word character, a hyphen, or the end of the
text, `get_trigger_line` returns the empty string, the trigger-present
skip check still passes (the message is not skipped), and matching runs
on an empty query string. -/
theorem c10_trigger_without_separator (env : Env) (pp : String → List String)
    (stat : List Plan → String → MatchResult) (plans : List Plan)
    (verbatims : List Verbatim) (post : Post) (ids : List String)
    (send simulate : Bool) (a : String)
    (hlock : post.locked = false) (hauth : post.author = some a)
    (hself : containsCI "warrenplanbot" a = false) (hid : post.id ∉ ids)
    (hocc : trigger_present post.text = true)
    (hbad : allPositionsOk badTriggerOcc post.text.toList = true) :
    get_trigger_line post.text = ""
    ∧ skip_reason_of post = none
    ∧ process_flags (get_trigger_line post.text) = .ok ("", [])
    ∧ (process_post env pp stat plans verbatims post ids send simulate false).events.head? =
        some (.strategiesRun "") := by
  have hgt : get_trigger_line post.text = "" := by
    unfold get_trigger_line
    rw [findAllTrigger_nil_of_bad _ _ hbad]
    rfl
  have hskip : skip_reason_of post = none := by
    unfold skip_reason_of
    rw [hlock, hauth]
    simp [hself, hocc]
  have hfl : process_flags (get_trigger_line post.text) = .ok ("", []) := by
    rw [hgt]
    decide
  refine ⟨hgt, hskip, hfl, ?_⟩
  rw [process_post_nonskip env pp stat plans verbatims post ids send simulate false
    ("", []) hid hskip hfl]
  simp

/-- C10 witness: `"hi !WarrenPlanBot"` contains the trigger, but only at
the very end of the text, so the capture regex cannot match. -/
theorem c10_witness :
    get_trigger_line postBareTrigger.text = ""
    ∧ skip_reason_of postBareTrigger = none
    ∧ process_flags (get_trigger_line postBareTrigger.text) = .ok ("", [])
    ∧ (process_post envOk ppId statEmpty [] verbatimsW postBareTrigger []
        false false false).events.head? = some (.strategiesRun "") :=
  c10_trigger_without_separator envOk ppId statEmpty [] verbatimsW postBareTrigger []
    false false "alice" (by decide) (by decide) (by decide) (by decide)
    (by decide) (by decide)
